import Mathlib

/-!
Verification development for the encrypted password vault subsystem of the
chatty-cockpit server (the `/api/passwords` routes of the API server).

Modelling conventions, chosen once for the whole file:

* Buffers and binary blobs are modelled as `List Nat` (`Bytes`).  The source
  stores binary fields hex-encoded; hex encoding is a bijection between byte
  strings and hex strings, so it is elided and the vault record holds the
  byte lists directly.
* Calls into the Node.js runtime are external library calls, not code of this
  repository, and are modelled as follows:
  - `crypto.randomBytes`, `uuidv4` and `new Date().toISOString()`: the random
    or time-dependent value is passed to the handler as an explicit input;
  - `crypto.pbkdf2Sync`: a deterministic computable stand-in keyed on all of
    its arguments (password, salt, iteration count, key length, digest name);
  - AES-256-GCM (`createCipheriv` / `createDecipheriv`): an ideal
    authenticated cipher.  The body is a CTR-style keystream XOR, so
    encryption is length-preserving and decryption inverts it; the
    authentication tag is modelled as a perfectly binding commitment to the
    key, the iv and the ciphertext.  Decryption recomputes the tag and fails
    exactly when it differs from the supplied one.  This captures the
    functional contract of AES-256-GCM with its negligible forgery
    probability idealised to zero;
  - `JSON.stringify` / `JSON.parse` on the entry list: an injective
    serialisation of the entry list into the plaintext byte stream together
    with its partial inverse.
* The JavaScript `Map` used for unlock sessions is modelled as an association
  list with `Map.get` / `Map.set` / `Map.delete` semantics, and `Date.now()`
  as a `now` field of the server state read by the handlers.
-/

abbrev Bytes := List Nat

/-- `interface PasswordEntry` from the source.  `url` and `notes` are
optional (`string | undefined`). -/
structure PasswordEntry where
  id : String
  name : String
  username : String
  password : String
  url : Option String
  notes : Option String
  createdAt : String
  updatedAt : String
deriving DecidableEq

/-- `interface PasswordVault` from the source: the single durable record.
`masterPasswordHash` is stored for verification only. -/
structure PasswordVault where
  salt : Bytes
  iv : Bytes
  authTag : Bytes
  encryptedData : Bytes
  masterPasswordHash : Bytes
deriving DecidableEq

/-! ### Serialisation of the entry list

Model of `JSON.stringify` / `JSON.parse` applied to `PasswordEntry[]`
(JavaScript runtime builtins, external to this repository): an injective
flat encoding of the entry list into the plaintext byte stream, with a
partial inverse that fails on ill-formed input exactly as `JSON.parse`
throws on ill-formed text. -/

def strCodes (s : String) : List Nat := s.data.map Char.toNat

def serStr (s : String) : List Nat := s.data.length :: strCodes s

def serOptStr : Option String → List Nat
  | none => [0]
  | some s => 1 :: serStr s

def serEntry (e : PasswordEntry) : List Nat :=
  serStr e.id ++ serStr e.name ++ serStr e.username ++ serStr e.password ++
    serOptStr e.url ++ serOptStr e.notes ++ serStr e.createdAt ++ serStr e.updatedAt

/-- Model of `JSON.stringify(entries)`: the serialised vault plaintext. -/
def serializeEntries (L : List PasswordEntry) : Bytes :=
  L.length :: (L.map serEntry).flatten

def takeExact : Nat → List Nat → Option (List Nat × List Nat)
  | 0, l => some ([], l)
  | _ + 1, [] => none
  | n + 1, a :: l =>
    match takeExact n l with
    | some (xs, rest) => some (a :: xs, rest)
    | none => none

def parseStr (l : List Nat) : Option (String × List Nat) :=
  match l with
  | [] => none
  | n :: rest =>
    match takeExact n rest with
    | some (codes, rest2) => some (String.mk (codes.map Char.ofNat), rest2)
    | none => none

def parseOptStr (l : List Nat) : Option (Option String × List Nat) :=
  match l with
  | 0 :: rest => some (none, rest)
  | 1 :: rest =>
    match parseStr rest with
    | some (s, rest2) => some (some s, rest2)
    | none => none
  | _ => none

def parseEntry (l : List Nat) : Option (PasswordEntry × List Nat) :=
  match parseStr l with
  | none => none
  | some (id, l1) =>
  match parseStr l1 with
  | none => none
  | some (name, l2) =>
  match parseStr l2 with
  | none => none
  | some (username, l3) =>
  match parseStr l3 with
  | none => none
  | some (password, l4) =>
  match parseOptStr l4 with
  | none => none
  | some (url, l5) =>
  match parseOptStr l5 with
  | none => none
  | some (notes, l6) =>
  match parseStr l6 with
  | none => none
  | some (createdAt, l7) =>
  match parseStr l7 with
  | none => none
  | some (updatedAt, l8) =>
    some (⟨id, name, username, password, url, notes, createdAt, updatedAt⟩, l8)

def parseEntriesAux : Nat → List Nat → Option (List PasswordEntry)
  | 0, [] => some []
  | 0, _ :: _ => none
  | n + 1, l =>
    match parseEntry l with
    | none => none
    | some (e, rest) =>
      match parseEntriesAux n rest with
      | none => none
      | some es => some (e :: es)

/-- Model of `JSON.parse(decrypted)` on the vault plaintext: the partial
inverse of `serializeEntries`. -/
def parseEntries (b : Bytes) : Option (List PasswordEntry) :=
  match b with
  | [] => none
  | n :: rest => parseEntriesAux n rest

theorem takeExact_append (l r : List Nat) : takeExact l.length (l ++ r) = some (l, r) := by
  induction l with
  | nil => rfl
  | cons a t ih => simp [takeExact, ih]

theorem parseStr_append (s : String) (r : List Nat) :
    parseStr (serStr s ++ r) = some (s, r) := by
  have hlen : (s.data.map Char.toNat).length = s.data.length := List.length_map _ _
  have htake := takeExact_append (s.data.map Char.toNat) r
  rw [hlen] at htake
  simp only [parseStr, serStr, strCodes, List.cons_append, htake]
  congr 1
  congr 1
  simp only [List.map_map]
  have : s.data.map (Char.ofNat ∘ Char.toNat) = s.data.map id := by
    apply List.map_congr_left
    intro c _
    simp [Char.ofNat_toNat]
  rw [this, List.map_id]

theorem parseOptStr_append (o : Option String) (r : List Nat) :
    parseOptStr (serOptStr o ++ r) = some (o, r) := by
  cases o with
  | none => rfl
  | some s => simp [serOptStr, parseOptStr, parseStr_append]

theorem parseEntry_append (e : PasswordEntry) (r : List Nat) :
    parseEntry (serEntry e ++ r) = some (e, r) := by
  simp only [serEntry, List.append_assoc]
  simp only [parseEntry, parseStr_append, parseOptStr_append]

theorem parseEntriesAux_append (L : List PasswordEntry) :
    parseEntriesAux L.length (L.map serEntry).flatten = some L := by
  induction L with
  | nil => rfl
  | cons e t ih => simp [parseEntriesAux, parseEntry_append, ih]

theorem parseEntries_serializeEntries (L : List PasswordEntry) :
    parseEntries (serializeEntries L) = some L := by
  simp [parseEntries, serializeEntries, parseEntriesAux_append]

/-! ### The authenticated cipher

Model of the AES-256-GCM usage in `encryptData` / `decryptData` of the
source.  The source generates a fresh `iv` with `crypto.randomBytes(16)`;
here the fresh iv is an explicit input of `encryptData`. -/

/-- Stand-in for the AES-CTR keystream inside GCM: an arbitrary fixed
deterministic function of the key, the iv and the byte position. -/
def keyStreamByte (key iv : Bytes) (i : Nat) : Nat :=
  (key.sum * 131 + iv.sum * 31 + key.length * 7 + iv.length * 3 + i * 7919 + 5) % 256

def keyStream (key iv : Bytes) (n : Nat) : Bytes :=
  (List.range n).map (keyStreamByte key iv)

def xorBytes (a b : Bytes) : Bytes := List.zipWith (fun x y => x ^^^ y) a b

/-- The GCM authentication tag, modelled as a perfectly binding commitment
to the key, the iv and the ciphertext (see the header comment): two
tag computations agree exactly when all three inputs agree. -/
def authTagOf (key iv ct : Bytes) : Bytes :=
  key.length :: iv.length :: (key ++ iv ++ ct)

structure EncryptResult where
  iv : Bytes
  authTag : Bytes
  encrypted : Bytes
deriving DecidableEq

/-- `encryptData` from the source: fresh iv, cipher body, auth tag. -/
def encryptData (data : Bytes) (key : Bytes) (ivFresh : Bytes) : EncryptResult :=
  let encrypted := xorBytes data (keyStream key ivFresh data.length)
  { iv := ivFresh, authTag := authTagOf key ivFresh encrypted, encrypted := encrypted }

/-- `decryptData` from the source: recomputes the tag over the supplied
ciphertext under the supplied key and iv, fails (the JS code throws, modelled
as `none`) when it does not match the supplied tag, and otherwise inverts
the keystream XOR. -/
def decryptData (encrypted : Bytes) (key : Bytes) (iv : Bytes) (authTag : Bytes) :
    Option Bytes :=
  if authTag = authTagOf key iv encrypted then
    some (xorBytes encrypted (keyStream key iv encrypted.length))
  else
    none

theorem xorBytes_length (a b : Bytes) : (xorBytes a b).length = min a.length b.length := by
  simp [xorBytes]

theorem keyStream_length (key iv : Bytes) (n : Nat) : (keyStream key iv n).length = n := by
  simp [keyStream]

theorem xorBytes_cancel (a b : Bytes) (h : b.length = a.length) :
    xorBytes (xorBytes a b) b = a := by
  induction a generalizing b with
  | nil => simp [xorBytes]
  | cons x t ih =>
    cases b with
    | nil => simp at h
    | cons y u =>
      simp only [List.length_cons, Nat.succ_inj] at h
      simp only [xorBytes, List.zipWith_cons_cons]
      rw [show List.zipWith (fun x y => x ^^^ y) (List.zipWith (fun x y => x ^^^ y) t u) u = t
            from ih u h]
      rw [Nat.xor_cancel_right]

theorem encryptData_encrypted_length (data key ivFresh : Bytes) :
    (encryptData data key ivFresh).encrypted.length = data.length := by
  simp [encryptData, xorBytes_length, keyStream_length]

theorem authTagOf_inj {k1 i1 c1 k2 i2 c2 : Bytes}
    (h : authTagOf k1 i1 c1 = authTagOf k2 i2 c2) : k1 = k2 ∧ i1 = i2 ∧ c1 = c2 := by
  simp only [authTagOf, List.cons.injEq] at h
  obtain ⟨hk, hi, happ⟩ := h
  have h1 := List.append_inj happ (by simp [hk, hi])
  obtain ⟨h12, hc⟩ := h1
  have h2 := List.append_inj h12 hk
  exact ⟨h2.1, h2.2, hc⟩

/-- Flip bit `j` of byte `i` of a byte list (as the tamper-detection
property of the specification flips single bits of ciphertext or tag). -/
def flipByteBit (l : Bytes) (i j : Nat) : Bytes :=
  l.set i ((l.getD i 0) ^^^ (2 ^ j))

theorem xor_two_pow_ne (n j : Nat) : n ^^^ 2 ^ j ≠ n := by
  intro h
  have h2 : n ^^^ (n ^^^ 2 ^ j) = n ^^^ n := by rw [h]
  rw [← Nat.xor_assoc, Nat.xor_self, Nat.zero_xor] at h2
  exact (Nat.two_pow_pos j).ne' h2

theorem flipByteBit_ne (l : Bytes) (i j : Nat) (h : i < l.length) :
    flipByteBit l i j ≠ l := by
  intro he
  have h1 : (flipByteBit l i j)[i]? = some ((l.getD i 0) ^^^ 2 ^ j) := by
    simp [flipByteBit, List.getElem?_set_self h]
  rw [he, List.getElem?_eq_getElem h, List.getD_eq_getElem l 0 h] at h1
  exact xor_two_pow_ne l[i] j (Option.some.inj h1).symm

theorem encryptData_decryptData (data key ivFresh : Bytes) :
    decryptData (encryptData data key ivFresh).encrypted key
      (encryptData data key ivFresh).iv (encryptData data key ivFresh).authTag
      = some data := by
  show decryptData (xorBytes data (keyStream key ivFresh data.length)) key ivFresh
      (authTagOf key ivFresh (xorBytes data (keyStream key ivFresh data.length))) = some data
  rw [decryptData, if_pos rfl]
  have hl : (xorBytes data (keyStream key ivFresh data.length)).length = data.length := by
    rw [xorBytes_length, keyStream_length, Nat.min_self]
  rw [hl, xorBytes_cancel data (keyStream key ivFresh data.length)
    (keyStream_length key ivFresh data.length)]

/-- C3: for every entry list `L` and every key, if `encryptData (serialize L)`
yields `{iv, authTag, encrypted}` then `decryptData encrypted key iv authTag`
returns exactly `serialize L`. -/
theorem C3_round_trip (L : List PasswordEntry) (key ivFresh : Bytes) :
    decryptData (encryptData (serializeEntries L) key ivFresh).encrypted key
      (encryptData (serializeEntries L) key ivFresh).iv
      (encryptData (serializeEntries L) key ivFresh).authTag
      = some (serializeEntries L) :=
  encryptData_decryptData (serializeEntries L) key ivFresh

/-- C2: decrypting a payload encrypted under key `A` with any key `B ≠ A`
fails and never returns a plaintext, and flipping any single bit of any byte
of the ciphertext or of the authTag makes decryption under the correct key
fail (in the ideal-cipher model of AES-256-GCM described in the header). -/
theorem C2_wrong_key_and_tamper_rejection :
    (∀ (p A B ivFresh : Bytes), B ≠ A →
      decryptData (encryptData p A ivFresh).encrypted B (encryptData p A ivFresh).iv
        (encryptData p A ivFresh).authTag = none) ∧
    (∀ (p A ivFresh : Bytes) (i j : Nat), i < (encryptData p A ivFresh).encrypted.length →
      decryptData (flipByteBit (encryptData p A ivFresh).encrypted i j) A ivFresh
        (encryptData p A ivFresh).authTag = none) ∧
    (∀ (p A ivFresh : Bytes) (i j : Nat), i < (encryptData p A ivFresh).authTag.length →
      decryptData (encryptData p A ivFresh).encrypted A ivFresh
        (flipByteBit (encryptData p A ivFresh).authTag i j) = none) := by
  refine ⟨?_, ?_, ?_⟩
  · intro p A B ivF hBA
    show decryptData (xorBytes p (keyStream A ivF p.length)) B ivF
        (authTagOf A ivF (xorBytes p (keyStream A ivF p.length))) = none
    rw [decryptData, if_neg]
    intro hEq
    exact hBA (authTagOf_inj hEq).1.symm
  · intro p A ivF i j hi
    have hi2 : i < (xorBytes p (keyStream A ivF p.length)).length := hi
    show decryptData (flipByteBit (xorBytes p (keyStream A ivF p.length)) i j) A ivF
        (authTagOf A ivF (xorBytes p (keyStream A ivF p.length))) = none
    rw [decryptData, if_neg]
    intro hEq
    exact flipByteBit_ne _ i j hi2 (authTagOf_inj hEq).2.2.symm
  · intro p A ivF i j hi
    have hi2 : i < (authTagOf A ivF (xorBytes p (keyStream A ivF p.length))).length := hi
    show decryptData (xorBytes p (keyStream A ivF p.length)) A ivF
        (flipByteBit (authTagOf A ivF (xorBytes p (keyStream A ivF p.length))) i j) = none
    rw [decryptData, if_neg]
    intro hEq
    exact flipByteBit_ne _ i j hi2 hEq

/-- Witness for C2: the three rejection properties applied at concrete inputs. -/
theorem C2_witness :
    (([5] : Bytes) ≠ [3] ∧ 0 < (encryptData [1, 2] [3] [4]).encrypted.length ∧
      0 < (encryptData [1, 2] [3] [4]).authTag.length) ∧
    decryptData (encryptData [1, 2] [3] [4]).encrypted [5] (encryptData [1, 2] [3] [4]).iv
      (encryptData [1, 2] [3] [4]).authTag = none ∧
    decryptData (flipByteBit (encryptData [1, 2] [3] [4]).encrypted 0 0) [3] [4]
      (encryptData [1, 2] [3] [4]).authTag = none ∧
    decryptData (encryptData [1, 2] [3] [4]).encrypted [3] [4]
      (flipByteBit (encryptData [1, 2] [3] [4]).authTag 0 3) = none :=
  ⟨⟨by decide, by decide, by decide⟩,
   C2_wrong_key_and_tamper_rejection.1 [1, 2] [3] [5] [4] (by decide),
   C2_wrong_key_and_tamper_rejection.2.1 [1, 2] [3] [4] 0 0 (by decide),
   C2_wrong_key_and_tamper_rejection.2.2 [1, 2] [3] [4] 0 3 (by decide)⟩

/-! ### Key derivation -/

/-- Stand-in for `crypto.pbkdf2Sync` (node:crypto, external library): a
deterministic computable function of the password, salt, iteration count,
requested key length and digest name, producing `keylen` bytes. -/
def pbkdf2Sync (password : String) (salt : Bytes) (iterations keylen : Nat)
    (digest : String) : Bytes :=
  (List.range keylen).map (fun i =>
    ((strCodes password).sum * 31 + salt.sum * 17 + salt.length * 13 +
      iterations + (strCodes digest).sum * 7 + i) % 256)

/-- `deriveKey` from the source: `pbkdf2Sync(password, salt, 100000, 32, 'sha256')`. -/
def deriveKey (password : String) (salt : Bytes) : Bytes :=
  pbkdf2Sync password salt 100000 32 "sha256"

/-- `hashMasterPassword` from the source:
`pbkdf2Sync(password, salt, 100000, 64, 'sha512')` (hex-encoded in storage). -/
def hashMasterPassword (password : String) (salt : Bytes) : Bytes :=
  pbkdf2Sync password salt 100000 64 "sha512"

/-! ### Session registry and server state -/

/-- The value type of the `passwordSessions` map: `{ key: Buffer; expiresAt: number }`. -/
structure PSession where
  key : Bytes
  expiresAt : Nat
deriving DecidableEq

/-- `PASSWORDS_SESSION_EXPIRY = 5 * 60 * 1000` (milliseconds). -/
def PASSWORDS_SESSION_EXPIRY : Nat := 5 * 60 * 1000

/-- `Map.get` on the sessions map. -/
def mapGet : List (String × PSession) → String → Option PSession
  | [], _ => none
  | (k2, v) :: rest, k => if k2 = k then some v else mapGet rest k

/-- `Map.set` on the sessions map: replaces the entry in place when the key
is present, appends otherwise. -/
def mapSet : List (String × PSession) → String → PSession → List (String × PSession)
  | [], k, v => [(k, v)]
  | (k2, v2) :: rest, k, v =>
    if k2 = k then (k, v) :: rest else (k2, v2) :: mapSet rest k v

/-- `Map.delete` on the sessions map. -/
def mapDelete : List (String × PSession) → String → List (String × PSession)
  | [], _ => []
  | (k2, v) :: rest, k =>
    if k2 = k then mapDelete rest k else (k2, v) :: mapDelete rest k

/-- The server-side mutable state the password routes touch: the in-memory
`passwordSessions` map, the persisted vault file (`PASSWORDS_FILE`, `none`
when the file does not exist), and the current clock value `Date.now()`. -/
structure ServerState where
  passwordSessions : List (String × PSession)
  vaultFile : Option PasswordVault
  now : Nat
deriving DecidableEq

/-- `getPasswordSession`: returns the session key, lazily evicting an
expired entry (`Date.now() > session.expiresAt`). -/
def getPasswordSession (st : ServerState) (email : String) : Option Bytes × ServerState :=
  match mapGet st.passwordSessions email with
  | none => (none, st)
  | some s =>
    if st.now > s.expiresAt then
      (none, { st with passwordSessions := mapDelete st.passwordSessions email })
    else
      (some s.key, st)

/-- `setPasswordSession`: stores the key with `expiresAt = Date.now() + PASSWORDS_SESSION_EXPIRY`. -/
def setPasswordSession (st : ServerState) (email : String) (key : Bytes) : ServerState :=
  { st with passwordSessions :=
      mapSet st.passwordSessions email ⟨key, st.now + PASSWORDS_SESSION_EXPIRY⟩ }

/-- `clearPasswordSession`. -/
def clearPasswordSession (st : ServerState) (email : String) : ServerState :=
  { st with passwordSessions := mapDelete st.passwordSessions email }

/-! ### Request bodies, JS truthiness helpers and response shapes -/

/-- JS falsiness of an optional string request field: absent (`undefined`)
or the empty string. -/
def jsFalsy : Option String → Bool
  | none => true
  | some s => s == ""

/-- `v || undefined` for an optional string field: the empty string is
replaced by `undefined`. -/
def jsOrUndefined : Option String → Option String
  | none => none
  | some s => if s == "" then none else some s

/-- The JSON object the source builds for a full entry (insertion order of
the `PasswordEntry` literal; `url`/`notes` keys are absent when `undefined`,
as `JSON.stringify` drops them). -/
def entryObj (e : PasswordEntry) : List (String × String) :=
  [("id", e.id), ("name", e.name), ("username", e.username), ("password", e.password)] ++
    (match e.url with | some u => [("url", u)] | none => []) ++
    (match e.notes with | some n => [("notes", n)] | none => []) ++
    [("createdAt", e.createdAt), ("updatedAt", e.updatedAt)]

/-- The object produced by the `({ password, ...rest })` rest-destructuring
in the source: every property of the entry except `password`. -/
def safeEntryObj (e : PasswordEntry) : List (String × String) :=
  [("id", e.id), ("name", e.name), ("username", e.username)] ++
    (match e.url with | some u => [("url", u)] | none => []) ++
    (match e.notes with | some n => [("notes", n)] | none => []) ++
    [("createdAt", e.createdAt), ("updatedAt", e.updatedAt)]

inductive ListResp
  | vaultLocked
  | vaultNotSetup
  | decryptionFailed
  | ok (entries : List (List (String × String)))
deriving DecidableEq

inductive GetResp
  | vaultLocked
  | vaultNotSetup
  | decryptionFailed
  | entryNotFound
  | ok (entry : PasswordEntry)
deriving DecidableEq

inductive CreateResp
  | vaultLocked
  | missingFields
  | vaultNotSetup
  | encryptionFailed
  | ok (entry : List (String × String))
deriving DecidableEq

inductive UpdateResp
  | vaultLocked
  | vaultNotSetup
  | entryNotFound
  | encryptionFailed
  | ok (entry : List (String × String))
deriving DecidableEq

inductive DeleteResp
  | vaultLocked
  | vaultNotSetup
  | entryNotFound
  | encryptionFailed
  | success
deriving DecidableEq

inductive SetupResp
  | weakPassword
  | alreadyExists
  | success
deriving DecidableEq

inductive UnlockResp
  | missingPassword
  | notSetup
  | invalidPassword
  | success
deriving DecidableEq

/-! ### Route handlers

Each handler takes the server state, the authenticated caller identity
(`user.email`), the request-body fields, and — where the source consumes
randomness or the clock-as-ISO-string — those values as explicit inputs.
It returns the response and the new server state. -/

/-- `GET /api/passwords` (list all, without password values). -/
def handleListPasswords (st : ServerState) (email : String) : ListResp × ServerState :=
  match getPasswordSession st email with
  | (none, st1) => (.vaultLocked, st1)
  | (some key, st1) =>
    match st1.vaultFile with
    | none => (.vaultNotSetup, st1)
    | some vault =>
      match decryptData vault.encryptedData key vault.iv vault.authTag with
      | none => (.decryptionFailed, clearPasswordSession st1 email)
      | some plain =>
        match parseEntries plain with
        | none => (.decryptionFailed, clearPasswordSession st1 email)
        | some entries => (.ok (entries.map safeEntryObj), st1)

/-- `GET /api/passwords/:id` (single entry, with decrypted password). -/
def handleGetPassword (st : ServerState) (email id : String) : GetResp × ServerState :=
  match getPasswordSession st email with
  | (none, st1) => (.vaultLocked, st1)
  | (some key, st1) =>
    match st1.vaultFile with
    | none => (.vaultNotSetup, st1)
    | some vault =>
      match decryptData vault.encryptedData key vault.iv vault.authTag with
      | none => (.decryptionFailed, clearPasswordSession st1 email)
      | some plain =>
        match parseEntries plain with
        | none => (.decryptionFailed, clearPasswordSession st1 email)
        | some entries =>
          match entries.find? (fun e => e.id == id) with
          | none => (.entryNotFound, st1)
          | some e => (.ok e, st1)

/-- The `try` body of `POST /api/passwords` from decrypt up to (and
including) building the re-encrypted vault: decrypt, parse, append the new
entry, re-encrypt.  Returns the replacement vault record and the new entry,
or `none` when decrypt/parse throws. -/
def createCompute (vault : PasswordVault) (key : Bytes) (name : String)
    (username : Option String) (password : String) (url notes : Option String)
    (newId nowIso : String) (ivNew : Bytes) : Option (PasswordVault × PasswordEntry) :=
  match decryptData vault.encryptedData key vault.iv vault.authTag with
  | none => none
  | some plain =>
    match parseEntries plain with
    | none => none
    | some entries =>
      let newEntry : PasswordEntry :=
        { id := newId, name := name, username := username.getD "",
          password := password, url := jsOrUndefined url, notes := jsOrUndefined notes,
          createdAt := nowIso, updatedAt := nowIso }
      let enc := encryptData (serializeEntries (entries ++ [newEntry])) key ivNew
      some ({ vault with iv := enc.iv, authTag := enc.authTag, encryptedData := enc.encrypted },
        newEntry)

/-- `POST /api/passwords` (create entry).  `newId` models `uuidv4()`,
`nowIso` models `new Date().toISOString()`, `ivNew` the fresh random iv. -/
def handleCreatePassword (st : ServerState) (email : String)
    (name username password url notes : Option String) (newId nowIso : String)
    (ivNew : Bytes) : CreateResp × ServerState :=
  match getPasswordSession st email with
  | (none, st1) => (.vaultLocked, st1)
  | (some key, st1) =>
    if jsFalsy name ∨ jsFalsy password then (.missingFields, st1)
    else
      match st1.vaultFile with
      | none => (.vaultNotSetup, st1)
      | some vault =>
        match createCompute vault key (name.getD "") username (password.getD "") url notes
            newId nowIso ivNew with
        | none => (.encryptionFailed, clearPasswordSession st1 email)
        | some (newVault, newEntry) =>
          (.ok (safeEntryObj newEntry), { st1 with vaultFile := some newVault })

/-- The per-entry mutation of `PUT /api/passwords/:id`: each provided field
(`!== undefined`) overwrites the stored one; `url`/`notes` additionally go
through `|| undefined`; `updatedAt` is bumped. -/
def applyEntryUpdate (e : PasswordEntry) (name username password url notes : Option String)
    (nowIso : String) : PasswordEntry :=
  { e with
    name := match name with | some v => v | none => e.name
    username := match username with | some v => v | none => e.username
    password := match password with | some v => v | none => e.password
    url := match url with | some v => jsOrUndefined (some v) | none => e.url
    notes := match notes with | some v => jsOrUndefined (some v) | none => e.notes
    updatedAt := nowIso }

/-- `entries.findIndex(e => e.id === id)` followed by the in-place mutation
of the found element: returns the updated entry and the updated list, or
`none` when no entry matches. -/
def updateFirst (id : String) (f : PasswordEntry → PasswordEntry) :
    List PasswordEntry → Option (PasswordEntry × List PasswordEntry)
  | [] => none
  | e :: rest =>
    if e.id = id then some (f e, f e :: rest)
    else
      match updateFirst id f rest with
      | some (u, rest2) => some (u, e :: rest2)
      | none => none

/-- `PUT /api/passwords/:id` (update entry). -/
def handleUpdatePassword (st : ServerState) (email id : String)
    (name username password url notes : Option String) (nowIso : String)
    (ivNew : Bytes) : UpdateResp × ServerState :=
  match getPasswordSession st email with
  | (none, st1) => (.vaultLocked, st1)
  | (some key, st1) =>
    match st1.vaultFile with
    | none => (.vaultNotSetup, st1)
    | some vault =>
      match decryptData vault.encryptedData key vault.iv vault.authTag with
      | none => (.encryptionFailed, clearPasswordSession st1 email)
      | some plain =>
        match parseEntries plain with
        | none => (.encryptionFailed, clearPasswordSession st1 email)
        | some entries =>
          match updateFirst id (fun e => applyEntryUpdate e name username password url notes nowIso)
              entries with
          | none => (.entryNotFound, st1)
          | some (updated, entries2) =>
            let enc := encryptData (serializeEntries entries2) key ivNew
            (.ok (safeEntryObj updated),
              { st1 with vaultFile := some { vault with
                  iv := enc.iv, authTag := enc.authTag, encryptedData := enc.encrypted } })

/-- `DELETE /api/passwords/:id` (delete entry). -/
def handleDeletePassword (st : ServerState) (email id : String) (ivNew : Bytes) :
    DeleteResp × ServerState :=
  match getPasswordSession st email with
  | (none, st1) => (.vaultLocked, st1)
  | (some key, st1) =>
    match st1.vaultFile with
    | none => (.vaultNotSetup, st1)
    | some vault =>
      match decryptData vault.encryptedData key vault.iv vault.authTag with
      | none => (.encryptionFailed, clearPasswordSession st1 email)
      | some plain =>
        match parseEntries plain with
        | none => (.encryptionFailed, clearPasswordSession st1 email)
        | some entries =>
          let entries2 := entries.filter (fun e => !(e.id == id))
          if entries2.length = entries.length then (.entryNotFound, st1)
          else
            let enc := encryptData (serializeEntries entries2) key ivNew
            (.success,
              { st1 with vaultFile := some { vault with
                  iv := enc.iv, authTag := enc.authTag, encryptedData := enc.encrypted } })

/-- `POST /api/passwords/setup`.  `salt` models `crypto.randomBytes(32)`
and `ivFresh` the fresh iv drawn inside `encryptData`. -/
def handleSetup (st : ServerState) (email : String) (masterPassword : Option String)
    (salt ivFresh : Bytes) : SetupResp × ServerState :=
  if jsFalsy masterPassword ∨ (masterPassword.getD "").length < 8 then
    (.weakPassword, st)
  else
    match st.vaultFile with
    | some _ => (.alreadyExists, st)
    | none =>
      let pw := masterPassword.getD ""
      let key := deriveKey pw salt
      let enc := encryptData (serializeEntries []) key ivFresh
      let vault : PasswordVault :=
        { salt := salt, iv := enc.iv, authTag := enc.authTag,
          encryptedData := enc.encrypted, masterPasswordHash := hashMasterPassword pw salt }
      (.success, setPasswordSession { st with vaultFile := some vault } email key)

/-- `POST /api/passwords/unlock`. -/
def handleUnlock (st : ServerState) (email : String) (masterPassword : Option String) :
    UnlockResp × ServerState :=
  if jsFalsy masterPassword then (.missingPassword, st)
  else
    match st.vaultFile with
    | none => (.notSetup, st)
    | some vault =>
      let pw := masterPassword.getD ""
      if hashMasterPassword pw vault.salt ≠ vault.masterPasswordHash then
        (.invalidPassword, st)
      else
        (.success, setPasswordSession st email (deriveKey pw vault.salt))

/-- `POST /api/passwords/lock`. -/
def handleLock (st : ServerState) (email : String) : ServerState :=
  clearPasswordSession st email

/-- `POST /api/passwords/generate` request body, with the source's
destructuring defaults (`length = 16`, the three flags `= true`). -/
structure GenerateBody where
  length : Option Int
  includeSymbols : Option Bool
  includeNumbers : Option Bool
  includeUppercase : Option Bool

/-- `parseInt(length) || 16`: an absent value or 0 (both falsy) become 16. -/
def requestedLength : Option Int → Int
  | none => 16
  | some v => if v = 0 then 16 else v

def LOWERCASE : List Char := "abcdefghijklmnopqrstuvwxyz".data

def UPPERCASE_CHARS : List Char := "ABCDEFGHIJKLMNOPQRSTUVWXYZ".data

def DIGIT_CHARS : List Char := "0123456789".data

def SYMBOL_CHARS : List Char := "!@#$%^&*()_+-=[]\x7b\x7d|;:,.<>?".data

/-- The charset built by the generate handler: lowercase always, the other
classes when their flag is on. -/
def charsetOf (includeUppercase includeNumbers includeSymbols : Bool) : List Char :=
  LOWERCASE ++ (if includeUppercase then UPPERCASE_CHARS else []) ++
    (if includeNumbers then DIGIT_CHARS else []) ++
    (if includeSymbols then SYMBOL_CHARS else [])

/-- `POST /api/passwords/generate`.  `randomBytes i` models byte `i` of
`crypto.randomBytes(passwordLength)`; each output character is
`charset[randomBytes[i] % charset.length]`. -/
def handleGeneratePassword (body : GenerateBody) (randomBytes : Nat → Nat) : String :=
  let passwordLength : Nat := (min (max (requestedLength body.length) 8) 128).toNat
  let charset := charsetOf (body.includeUppercase.getD true) (body.includeNumbers.getD true)
    (body.includeSymbols.getD true)
  String.mk ((List.range passwordLength).map
    (fun i => charset.getD (randomBytes i % charset.length) 'a'))

/-! ### Session map lemmas -/

theorem mapGet_mapSet_self (m : List (String × PSession)) (k : String) (v : PSession) :
    mapGet (mapSet m k v) k = some v := by
  induction m with
  | nil => simp [mapSet, mapGet]
  | cons p rest ih =>
    obtain ⟨k2, v2⟩ := p
    by_cases h : k2 = k <;> simp [mapSet, mapGet, h, ih]

theorem mapGet_mapDelete_self (m : List (String × PSession)) (k : String) :
    mapGet (mapDelete m k) k = none := by
  induction m with
  | nil => rfl
  | cons p rest ih =>
    obtain ⟨k2, v2⟩ := p
    by_cases h : k2 = k <;> simp [mapDelete, mapGet, h, ih]

theorem mapGet_of_mapDelete (m : List (String × PSession)) (k e : String) (s : PSession)
    (h : mapGet (mapDelete m k) e = some s) : mapGet m e = some s := by
  induction m with
  | nil => simp [mapDelete, mapGet] at h
  | cons p rest ih =>
    obtain ⟨k2, v2⟩ := p
    by_cases h2 : k2 = k
    · rw [show mapDelete ((k2, v2) :: rest) k = mapDelete rest k by simp [mapDelete, h2]] at h
      by_cases h3 : k2 = e
      · subst h3
        subst h2
        rw [mapGet_mapDelete_self] at h
        cases h
      · rw [mapGet, if_neg h3]
        exact ih h
    · rw [show mapDelete ((k2, v2) :: rest) k = (k2, v2) :: mapDelete rest k by
        simp [mapDelete, h2]] at h
      by_cases h3 : k2 = e
      · rw [mapGet, if_pos h3] at h
        rw [mapGet, if_pos h3]
        exact h
      · rw [mapGet, if_neg h3] at h
        rw [mapGet, if_neg h3]
        exact ih h

theorem getPasswordSession_vaultFile (st : ServerState) (email : String) :
    ((getPasswordSession st email).2).vaultFile = st.vaultFile := by
  unfold getPasswordSession
  rcases hm : mapGet st.passwordSessions email with _ | s
  · rfl
  · by_cases h2 : st.now > s.expiresAt <;> simp [h2]

theorem getPasswordSession_live (st : ServerState) (email : String) (s : PSession)
    (hs : mapGet st.passwordSessions email = some s) (hl : ¬ st.now > s.expiresAt) :
    getPasswordSession st email = (some s.key, st) := by
  simp [getPasswordSession, hs, hl]

theorem getPasswordSession_some_eq (st : ServerState) (email : String) (k : Bytes)
    (st2 : ServerState) (h : getPasswordSession st email = (some k, st2)) : st2 = st := by
  unfold getPasswordSession at h
  rcases hm : mapGet st.passwordSessions email with _ | s <;> rw [hm] at h
  · cases h
  · by_cases h2 : st.now > s.expiresAt
    · simp [h2] at h
    · simp [h2] at h
      exact h.2.symm

theorem getPasswordSession_sessions (st : ServerState) (email : String) :
    (getPasswordSession st email).2.passwordSessions = st.passwordSessions ∨
    (getPasswordSession st email).2.passwordSessions = mapDelete st.passwordSessions email := by
  unfold getPasswordSession
  rcases hm : mapGet st.passwordSessions email with _ | s
  · exact Or.inl rfl
  · by_cases h2 : st.now > s.expiresAt <;> simp [h2]

/-- No surviving session is changed by a state transition: every session
present afterwards was already present, with the same key and the same
`expiresAt` (so in particular no TTL is ever extended). -/
def sessionsNotRefreshed (st st2 : ServerState) : Prop :=
  ∀ e s, mapGet st2.passwordSessions e = some s → mapGet st.passwordSessions e = some s

theorem notRefreshed_of_sessions_cases (st st2 : ServerState) (email : String)
    (h : st2.passwordSessions = st.passwordSessions ∨
      st2.passwordSessions = mapDelete st.passwordSessions email) :
    sessionsNotRefreshed st st2 := by
  intro e s hs
  rcases h with h | h
  · rw [h] at hs
    exact hs
  · rw [h] at hs
    exact mapGet_of_mapDelete _ _ _ _ hs

theorem handleListPasswords_sessions (st : ServerState) (email : String) :
    (handleListPasswords st email).2.passwordSessions = st.passwordSessions ∨
    (handleListPasswords st email).2.passwordSessions = mapDelete st.passwordSessions email := by
  unfold handleListPasswords
  rcases hg : getPasswordSession st email with ⟨ko, st1⟩
  cases ko with
  | none =>
    have h2 := getPasswordSession_sessions st email
    rw [hg] at h2
    simpa using h2
  | some key =>
    have h1 : st1 = st := getPasswordSession_some_eq st email key st1 hg
    subst h1
    cases hv : st1.vaultFile with
    | none => simp [hv]
    | some vault =>
      cases hd : decryptData vault.encryptedData key vault.iv vault.authTag with
      | none => simp [hv, hd, clearPasswordSession]
      | some plain =>
        cases hp : parseEntries plain with
        | none => simp [hv, hd, hp, clearPasswordSession]
        | some entries => simp [hv, hd, hp]

theorem handleGetPassword_sessions (st : ServerState) (email id : String) :
    (handleGetPassword st email id).2.passwordSessions = st.passwordSessions ∨
    (handleGetPassword st email id).2.passwordSessions = mapDelete st.passwordSessions email := by
  unfold handleGetPassword
  rcases hg : getPasswordSession st email with ⟨ko, st1⟩
  cases ko with
  | none =>
    have h2 := getPasswordSession_sessions st email
    rw [hg] at h2
    simpa using h2
  | some key =>
    have h1 : st1 = st := getPasswordSession_some_eq st email key st1 hg
    subst h1
    cases hv : st1.vaultFile with
    | none => simp [hv]
    | some vault =>
      cases hd : decryptData vault.encryptedData key vault.iv vault.authTag with
      | none => simp [hv, hd, clearPasswordSession]
      | some plain =>
        cases hp : parseEntries plain with
        | none => simp [hv, hd, hp, clearPasswordSession]
        | some entries =>
          cases hf : entries.find? (fun e => e.id == id) with
          | none => simp [hv, hd, hp, hf]
          | some e => simp [hv, hd, hp, hf]

theorem handleCreatePassword_sessions (st : ServerState) (email : String)
    (name username password url notes : Option String) (newId nowIso : String)
    (ivNew : Bytes) :
    (handleCreatePassword st email name username password url notes newId nowIso ivNew).2.passwordSessions = st.passwordSessions ∨
    (handleCreatePassword st email name username password url notes newId nowIso ivNew).2.passwordSessions = mapDelete st.passwordSessions email := by
  unfold handleCreatePassword
  rcases hg : getPasswordSession st email with ⟨ko, st1⟩
  cases ko with
  | none =>
    have h2 := getPasswordSession_sessions st email
    rw [hg] at h2
    simpa using h2
  | some key =>
    have h1 : st1 = st := getPasswordSession_some_eq st email key st1 hg
    subst h1
    by_cases hb : jsFalsy name ∨ jsFalsy password
    · simp [hb]
    · cases hv : st1.vaultFile with
      | none => simp [hb, hv]
      | some vault =>
        cases hc : createCompute vault key (name.getD "") username (password.getD "") url notes
            newId nowIso ivNew with
        | none => simp [hb, hv, hc, clearPasswordSession]
        | some p =>
          obtain ⟨nv, ne⟩ := p
          simp [hb, hv, hc]

theorem handleUpdatePassword_sessions (st : ServerState) (email id : String)
    (name username password url notes : Option String) (nowIso : String) (ivNew : Bytes) :
    (handleUpdatePassword st email id name username password url notes nowIso ivNew).2.passwordSessions = st.passwordSessions ∨
    (handleUpdatePassword st email id name username password url notes nowIso ivNew).2.passwordSessions = mapDelete st.passwordSessions email := by
  unfold handleUpdatePassword
  rcases hg : getPasswordSession st email with ⟨ko, st1⟩
  cases ko with
  | none =>
    have h2 := getPasswordSession_sessions st email
    rw [hg] at h2
    simpa using h2
  | some key =>
    have h1 : st1 = st := getPasswordSession_some_eq st email key st1 hg
    subst h1
    cases hv : st1.vaultFile with
    | none => simp [hv]
    | some vault =>
      cases hd : decryptData vault.encryptedData key vault.iv vault.authTag with
      | none => simp [hv, hd, clearPasswordSession]
      | some plain =>
        cases hp : parseEntries plain with
        | none => simp [hv, hd, hp, clearPasswordSession]
        | some entries =>
          cases hu : updateFirst id
              (fun e => applyEntryUpdate e name username password url notes nowIso) entries with
          | none => simp [hv, hd, hp, hu]
          | some p =>
            obtain ⟨u2, es2⟩ := p
            simp [hv, hd, hp, hu]

theorem handleDeletePassword_sessions (st : ServerState) (email id : String) (ivNew : Bytes) :
    (handleDeletePassword st email id ivNew).2.passwordSessions = st.passwordSessions ∨
    (handleDeletePassword st email id ivNew).2.passwordSessions = mapDelete st.passwordSessions email := by
  unfold handleDeletePassword
  rcases hg : getPasswordSession st email with ⟨ko, st1⟩
  cases ko with
  | none =>
    have h2 := getPasswordSession_sessions st email
    rw [hg] at h2
    simpa using h2
  | some key =>
    have h1 : st1 = st := getPasswordSession_some_eq st email key st1 hg
    subst h1
    cases hv : st1.vaultFile with
    | none => simp [hv]
    | some vault =>
      cases hd : decryptData vault.encryptedData key vault.iv vault.authTag with
      | none => simp [hv, hd, clearPasswordSession]
      | some plain =>
        cases hp : parseEntries plain with
        | none => simp [hv, hd, hp, clearPasswordSession]
        | some entries =>
          by_cases hf : (entries.filter (fun e => !(e.id == id))).length = entries.length
          · simp [hv, hd, hp, hf]
          · simp [hv, hd, hp, hf]

/-- C1: for every list/get/update/delete call made by a caller holding a
live session, if decryption of the stored vault payload fails, the caller's
session is removed from the registry before the error is returned, so the
vault is Locked for that caller (no session lookup succeeds) immediately
after the failing call. -/
theorem C1_decrypt_failure_forces_lock
    (st : ServerState) (email : String) (s : PSession) (vault : PasswordVault)
    (hs : mapGet st.passwordSessions email = some s)
    (hl : ¬ st.now > s.expiresAt)
    (hv : st.vaultFile = some vault)
    (hd : decryptData vault.encryptedData s.key vault.iv vault.authTag = none) :
    (handleListPasswords st email = (.decryptionFailed, clearPasswordSession st email) ∧
      mapGet (handleListPasswords st email).2.passwordSessions email = none) ∧
    (∀ id, handleGetPassword st email id = (.decryptionFailed, clearPasswordSession st email) ∧
      mapGet (handleGetPassword st email id).2.passwordSessions email = none) ∧
    (∀ id name username password url notes nowIso ivNew,
      handleUpdatePassword st email id name username password url notes nowIso ivNew
        = (.encryptionFailed, clearPasswordSession st email) ∧
      mapGet (handleUpdatePassword st email id name username password url notes nowIso
        ivNew).2.passwordSessions email = none) ∧
    (∀ id ivNew,
      handleDeletePassword st email id ivNew
        = (.encryptionFailed, clearPasswordSession st email) ∧
      mapGet (handleDeletePassword st email id ivNew).2.passwordSessions email = none) := by
  have hget := getPasswordSession_live st email s hs hl
  refine ⟨⟨?_, ?_⟩, fun id => ⟨?_, ?_⟩, fun id nm un pw u n t iv => ⟨?_, ?_⟩,
    fun id iv => ⟨?_, ?_⟩⟩ <;>
    simp [handleListPasswords, handleGetPassword, handleUpdatePassword, handleDeletePassword,
      hget, hv, hd, clearPasswordSession, mapGet_mapDelete_self]

/-- Witness for C1: a concrete live session over a vault whose stored tag
does not verify; the list call fails and the delete call leaves no session. -/
theorem C1_witness :
    (mapGet [("u", ⟨[1], 10⟩)] "u" = some ⟨[1], 10⟩ ∧
      decryptData [3] [1] [2] [9] = none) ∧
    handleListPasswords ⟨[("u", ⟨[1], 10⟩)], some ⟨[0], [2], [9], [3], []⟩, 0⟩ "u"
      = (.decryptionFailed,
         clearPasswordSession ⟨[("u", ⟨[1], 10⟩)], some ⟨[0], [2], [9], [3], []⟩, 0⟩ "u") ∧
    mapGet (handleDeletePassword ⟨[("u", ⟨[1], 10⟩)], some ⟨[0], [2], [9], [3], []⟩, 0⟩
      "u" "x" [7]).2.passwordSessions "u" = none :=
  ⟨⟨by decide, by decide⟩,
   (C1_decrypt_failure_forces_lock ⟨[("u", ⟨[1], 10⟩)], some ⟨[0], [2], [9], [3], []⟩, 0⟩
     "u" ⟨[1], 10⟩ ⟨[0], [2], [9], [3], []⟩ (by decide) (by decide) rfl (by decide)).1.1,
   ((C1_decrypt_failure_forces_lock ⟨[("u", ⟨[1], 10⟩)], some ⟨[0], [2], [9], [3], []⟩, 0⟩
     "u" ⟨[1], 10⟩ ⟨[0], [2], [9], [3], []⟩ (by decide) (by decide) rfl (by decide)).2.2.2
     "x" [7]).2⟩

/-- C4: a session stored at `T0` gets `expiresAt = T0 + PASSWORDS_SESSION_EXPIRY`
with the constant equal to 5 minutes; a `get` at `T0 + 4m59s` returns the key
without touching the state, a `get` at `T0 + 5m01s` returns `none` and evicts
the entry; and neither `get` nor any of the entry operations ever refreshes
(or extends) the expiry of a surviving session — the TTL is fixed from the
moment the session is set. -/
theorem C4_session_ttl_fixed :
    PASSWORDS_SESSION_EXPIRY = 5 * 60 * 1000 ∧
    (∀ (st : ServerState) (email : String) (key : Bytes),
      mapGet (setPasswordSession st email key).passwordSessions email
        = some ⟨key, st.now + PASSWORDS_SESSION_EXPIRY⟩) ∧
    (∀ (st : ServerState) (email : String) (key : Bytes),
      getPasswordSession { setPasswordSession st email key with now := st.now + 299000 } email
        = (some key, { setPasswordSession st email key with now := st.now + 299000 })) ∧
    (∀ (st : ServerState) (email : String) (key : Bytes),
      getPasswordSession { setPasswordSession st email key with now := st.now + 301000 } email
        = (none,
           { setPasswordSession st email key with
               now := st.now + 301000,
               passwordSessions :=
                 mapDelete (setPasswordSession st email key).passwordSessions email }) ∧
      mapGet (getPasswordSession { setPasswordSession st email key with now := st.now + 301000 }
        email).2.passwordSessions email = none) ∧
    (∀ (st : ServerState) (email : String),
      sessionsNotRefreshed st (getPasswordSession st email).2) ∧
    (∀ (st : ServerState) (email : String),
      sessionsNotRefreshed st (handleListPasswords st email).2) ∧
    (∀ (st : ServerState) (email id : String),
      sessionsNotRefreshed st (handleGetPassword st email id).2) ∧
    (∀ (st : ServerState) (email : String) (name username password url notes : Option String)
      (newId nowIso : String) (ivNew : Bytes),
      sessionsNotRefreshed st
        (handleCreatePassword st email name username password url notes newId nowIso ivNew).2) ∧
    (∀ (st : ServerState) (email id : String) (name username password url notes : Option String)
      (nowIso : String) (ivNew : Bytes),
      sessionsNotRefreshed st
        (handleUpdatePassword st email id name username password url notes nowIso ivNew).2) ∧
    (∀ (st : ServerState) (email id : String) (ivNew : Bytes),
      sessionsNotRefreshed st (handleDeletePassword st email id ivNew).2) := by
  refine ⟨rfl, ?_, ?_, ?_, ?_, ?_, ?_, ?_, ?_, ?_⟩
  · intro st email key
    simp [setPasswordSession, mapGet_mapSet_self]
  · intro st email key
    have hm : mapGet (setPasswordSession st email key).passwordSessions email
        = some ⟨key, st.now + PASSWORDS_SESSION_EXPIRY⟩ := by
      simp [setPasswordSession, mapGet_mapSet_self]
    have hn : ¬ st.now + 299000 > st.now + PASSWORDS_SESSION_EXPIRY := by
      unfold PASSWORDS_SESSION_EXPIRY
      omega
    simp [getPasswordSession, hm, hn]
  · intro st email key
    have hm : mapGet (setPasswordSession st email key).passwordSessions email
        = some ⟨key, st.now + PASSWORDS_SESSION_EXPIRY⟩ := by
      simp [setPasswordSession, mapGet_mapSet_self]
    have hn : st.now + 301000 > st.now + PASSWORDS_SESSION_EXPIRY := by
      simp [PASSWORDS_SESSION_EXPIRY]
    constructor
    · simp [getPasswordSession, hm, hn]
    · simp [getPasswordSession, hm, hn, mapGet_mapDelete_self]
  · intro st email
    exact notRefreshed_of_sessions_cases st _ email (getPasswordSession_sessions st email)
  · intro st email
    exact notRefreshed_of_sessions_cases st _ email (handleListPasswords_sessions st email)
  · intro st email id
    exact notRefreshed_of_sessions_cases st _ email (handleGetPassword_sessions st email id)
  · intro st email name username password url notes newId nowIso ivNew
    exact notRefreshed_of_sessions_cases st _ email
      (handleCreatePassword_sessions st email name username password url notes newId nowIso ivNew)
  · intro st email id name username password url notes nowIso ivNew
    exact notRefreshed_of_sessions_cases st _ email
      (handleUpdatePassword_sessions st email id name username password url notes nowIso ivNew)
  · intro st email id ivNew
    exact notRefreshed_of_sessions_cases st _ email
      (handleDeletePassword_sessions st email id ivNew)

/-- Witness for C4: a concrete session set at time 0 is retrievable at
299000 ms, gone at 301000 ms, and a `get` for another caller leaves a
bystander session untouched. -/
theorem C4_witness :
    (getPasswordSession
        { setPasswordSession ⟨[], none, 0⟩ "u" [1] with now := 299000 } "u").1 = some [1] ∧
    (getPasswordSession
        { setPasswordSession ⟨[], none, 0⟩ "u" [1] with now := 301000 } "u").1 = none ∧
    (mapGet ((getPasswordSession ⟨[("v", ⟨[2], 50⟩)], none, 0⟩ "u").2).passwordSessions "v"
        = some ⟨[2], 50⟩ ∧
      mapGet (⟨[("v", ⟨[2], 50⟩)], none, 0⟩ : ServerState).passwordSessions "v"
        = some ⟨[2], 50⟩) :=
  ⟨by rw [show ({ setPasswordSession ⟨[], none, 0⟩ "u" [1] with now := 299000 } : ServerState)
        = { setPasswordSession (⟨[], none, 0⟩ : ServerState) "u" [1] with
              now := (⟨[], none, 0⟩ : ServerState).now + 299000 } from rfl,
      C4_session_ttl_fixed.2.2.1 ⟨[], none, 0⟩ "u" [1]],
   by rw [show ({ setPasswordSession ⟨[], none, 0⟩ "u" [1] with now := 301000 } : ServerState)
        = { setPasswordSession (⟨[], none, 0⟩ : ServerState) "u" [1] with
              now := (⟨[], none, 0⟩ : ServerState).now + 301000 } from rfl,
      (C4_session_ttl_fixed.2.2.2.1 ⟨[], none, 0⟩ "u" [1]).1],
   ⟨C4_session_ttl_fixed.2.2.2.2.1 ⟨[("v", ⟨[2], 50⟩)], none, 0⟩ "u" "v" ⟨[2], 50⟩ (by decide),
    by decide⟩⟩

/-! ### The no-password-leak invariant of the listing -/

theorem safeEntryObj_fst (e : PasswordEntry) :
    (safeEntryObj e).map Prod.fst
      = ["id", "name", "username"] ++
          (match e.url with | some _ => ["url"] | none => []) ++
          (match e.notes with | some _ => ["notes"] | none => []) ++
          ["createdAt", "updatedAt"] := by
  cases hu : e.url <;> cases hn : e.notes <;> simp [safeEntryObj, hu, hn]

theorem safeEntryObj_no_password_key (e : PasswordEntry) (kv : String × String)
    (h : kv ∈ safeEntryObj e) : kv.1 ≠ "password" := by
  intro hbad
  have h2 : kv.1 ∈ (safeEntryObj e).map Prod.fst := List.mem_map_of_mem Prod.fst h
  rw [safeEntryObj_fst, hbad] at h2
  cases hu : e.url <;> cases hn : e.notes <;> simp [hu, hn] at h2

theorem safeEntryObj_eq_entryObj_erase_password (e : PasswordEntry) :
    safeEntryObj e = (entryObj e).filter (fun kv => !(kv.1 == "password")) := by
  cases hu : e.url <;> cases hn : e.notes <;>
    simp [safeEntryObj, entryObj, hu, hn, List.filter]

/-- C5: for an unlocked caller and decryptable, parseable vault contents,
the list operation returns exactly one object per stored entry, each object
being the full entry object with (exactly) the `password` key removed, and
no returned object contains a `password` key. -/
theorem C5_list_strips_passwords
    (st : ServerState) (email : String) (s : PSession) (vault : PasswordVault)
    (plain : Bytes) (entries : List PasswordEntry)
    (hs : mapGet st.passwordSessions email = some s)
    (hl : ¬ st.now > s.expiresAt)
    (hv : st.vaultFile = some vault)
    (hd : decryptData vault.encryptedData s.key vault.iv vault.authTag = some plain)
    (hp : parseEntries plain = some entries) :
    handleListPasswords st email = (.ok (entries.map safeEntryObj), st) ∧
    (entries.map safeEntryObj).length = entries.length ∧
    entries.map safeEntryObj
      = entries.map (fun e => (entryObj e).filter (fun kv => !(kv.1 == "password"))) ∧
    (∀ o ∈ entries.map safeEntryObj, ∀ kv ∈ o, kv.1 ≠ "password") := by
  have hget := getPasswordSession_live st email s hs hl
  refine ⟨?_, by simp, ?_, ?_⟩
  · simp [handleListPasswords, hget, hv, hd, hp]
  · exact List.map_congr_left (fun e _ => safeEntryObj_eq_entryObj_erase_password e)
  · intro o ho kv hkv
    rw [List.mem_map] at ho
    obtain ⟨e, _, rfl⟩ := ho
    exact safeEntryObj_no_password_key e kv hkv

/-- Concrete entry for the C5 witness. -/
def wEntry : PasswordEntry := ⟨"i", "n", "u", "p", none, none, "c", "d"⟩

/-- Concrete key for the C5 witness. -/
def wKey : Bytes := [1]

/-- Concrete vault for the C5 witness: the encryption of `[wEntry]` under `wKey`. -/
def wVault : PasswordVault :=
  ⟨[0], (encryptData (serializeEntries [wEntry]) wKey [2]).iv,
    (encryptData (serializeEntries [wEntry]) wKey [2]).authTag,
    (encryptData (serializeEntries [wEntry]) wKey [2]).encrypted, []⟩

/-- Concrete server state for the C5 witness. -/
def wState : ServerState := ⟨[("u", ⟨wKey, 10⟩)], some wVault, 0⟩

/-- Witness for C5: the hypotheses hold at the concrete state and the listing
is the single password-free object. -/
theorem C5_witness :
    (mapGet wState.passwordSessions "u" = some ⟨wKey, 10⟩ ∧
      decryptData wVault.encryptedData wKey wVault.iv wVault.authTag
        = some (serializeEntries [wEntry]) ∧
      parseEntries (serializeEntries [wEntry]) = some [wEntry]) ∧
    handleListPasswords wState "u" = (.ok [safeEntryObj wEntry], wState) ∧
    (∀ kv ∈ safeEntryObj wEntry, kv.1 ≠ "password") :=
  ⟨⟨by decide, by decide, by decide⟩,
   (C5_list_strips_passwords wState "u" ⟨wKey, 10⟩ wVault (serializeEntries [wEntry]) [wEntry]
     (by decide) (by decide) rfl (by decide) (by decide)).1,
   fun kv hkv =>
     (C5_list_strips_passwords wState "u" ⟨wKey, 10⟩ wVault (serializeEntries [wEntry]) [wEntry]
       (by decide) (by decide) rfl (by decide) (by decide)).2.2.2
       (safeEntryObj wEntry) (by simp) kv hkv⟩

/-- The vault record a successful setup persists: the given salt, the
encryption of the empty entry list under the derived key, and the
verification hash. -/
def setupVault (pw : String) (salt ivFresh : Bytes) : PasswordVault :=
  { salt := salt,
    iv := (encryptData (serializeEntries []) (deriveKey pw salt) ivFresh).iv,
    authTag := (encryptData (serializeEntries []) (deriveKey pw salt) ivFresh).authTag,
    encryptedData := (encryptData (serializeEntries []) (deriveKey pw salt) ivFresh).encrypted,
    masterPasswordHash := hashMasterPassword pw salt }

/-- C6: setup fails with WeakPassword when the password is shorter than 8
characters, fails with AlreadyInitialized when a vault record already
exists, and otherwise persists a vault record carrying the given salt, the
derived verification hash and the encryption of the empty entry list, and
immediately creates a session for the caller, so the caller is Unlocked. -/
theorem C6_setup_behaviour :
    (∀ (st : ServerState) (email pw : String) (salt ivFresh : Bytes),
      pw.length < 8 →
      handleSetup st email (some pw) salt ivFresh = (.weakPassword, st)) ∧
    (∀ (st : ServerState) (email pw : String) (salt ivFresh : Bytes) (vault : PasswordVault),
      8 ≤ pw.length → st.vaultFile = some vault →
      handleSetup st email (some pw) salt ivFresh = (.alreadyExists, st)) ∧
    (∀ (st : ServerState) (email pw : String) (salt ivFresh : Bytes),
      8 ≤ pw.length → st.vaultFile = none →
      handleSetup st email (some pw) salt ivFresh
        = (.success,
           setPasswordSession { st with vaultFile := some (setupVault pw salt ivFresh) }
             email (deriveKey pw salt)) ∧
      (handleSetup st email (some pw) salt ivFresh).2.vaultFile
        = some (setupVault pw salt ivFresh) ∧
      mapGet (handleSetup st email (some pw) salt ivFresh).2.passwordSessions email
        = some ⟨deriveKey pw salt, st.now + PASSWORDS_SESSION_EXPIRY⟩ ∧
      getPasswordSession (handleSetup st email (some pw) salt ivFresh).2 email
        = (some (deriveKey pw salt), (handleSetup st email (some pw) salt ivFresh).2)) := by
  refine ⟨?_, ?_, ?_⟩
  · intro st email pw salt ivFresh h
    simp [handleSetup, h]
  · intro st email pw salt ivFresh vault h8 hv
    have hne : pw ≠ "" := by
      intro he
      rw [he] at h8
      simp at h8
    simp [handleSetup, jsFalsy, hne, Nat.not_lt.mpr h8, hv]
  · intro st email pw salt ivFresh h8 hv
    have hne : pw ≠ "" := by
      intro he
      rw [he] at h8
      simp at h8
    have hrun : handleSetup st email (some pw) salt ivFresh
        = (.success,
           setPasswordSession { st with vaultFile := some (setupVault pw salt ivFresh) }
             email (deriveKey pw salt)) := by
      simp [handleSetup, jsFalsy, hne, Nat.not_lt.mpr h8, hv, setupVault]
    refine ⟨hrun, ?_, ?_, ?_⟩
    · rw [hrun]
      simp [setPasswordSession]
    · rw [hrun]
      simp [setPasswordSession, mapGet_mapSet_self]
    · rw [hrun]
      have hm : mapGet (mapSet st.passwordSessions email
            ⟨deriveKey pw salt, st.now + PASSWORDS_SESSION_EXPIRY⟩) email
          = some ⟨deriveKey pw salt, st.now + PASSWORDS_SESSION_EXPIRY⟩ :=
        mapGet_mapSet_self st.passwordSessions email _
      have hn : ¬ (st.now + PASSWORDS_SESSION_EXPIRY < st.now) := by omega
      simp [getPasswordSession, setPasswordSession, hm, hn]

/-- Witness for C6: the three setup behaviours at concrete inputs. -/
theorem C6_witness :
    ("short".length < 8 ∧
      handleSetup ⟨[], none, 0⟩ "u" (some "short") [1] [2] = (.weakPassword, ⟨[], none, 0⟩)) ∧
    (8 ≤ "longsecret1".length ∧
      handleSetup wState "u" (some "longsecret1") [1] [2] = (.alreadyExists, wState)) ∧
    (handleSetup ⟨[], none, 0⟩ "u" (some "longsecret1") [1] [2]
        = (.success,
           setPasswordSession ⟨[], some (setupVault "longsecret1" [1] [2]), 0⟩ "u"
             (deriveKey "longsecret1" [1])) ∧
      getPasswordSession (handleSetup ⟨[], none, 0⟩ "u" (some "longsecret1") [1] [2]).2 "u"
        = (some (deriveKey "longsecret1" [1]),
           (handleSetup ⟨[], none, 0⟩ "u" (some "longsecret1") [1] [2]).2)) :=
  ⟨⟨by decide, C6_setup_behaviour.1 ⟨[], none, 0⟩ "u" "short" [1] [2] (by decide)⟩,
   ⟨by decide, C6_setup_behaviour.2.1 wState "u" "longsecret1" [1] [2] wVault (by decide) rfl⟩,
   ⟨(C6_setup_behaviour.2.2 ⟨[], none, 0⟩ "u" "longsecret1" [1] [2] (by decide) rfl).1,
    (C6_setup_behaviour.2.2 ⟨[], none, 0⟩ "u" "longsecret1" [1] [2] (by decide) rfl).2.2.2⟩⟩

theorem charsetOf_length_pos (u n s : Bool) : 0 < (charsetOf u n s).length := by
  cases u <;> cases n <;> cases s <;> decide

theorem handleGeneratePassword_length (body : GenerateBody) (r : Nat → Nat) :
    (handleGeneratePassword body r).length
      = (min (max (requestedLength body.length) 8) 128).toNat := by
  simp [handleGeneratePassword, String.length]

theorem handleGeneratePassword_mem (body : GenerateBody) (r : Nat → Nat) (c : Char)
    (hc : c ∈ (handleGeneratePassword body r).data) :
    c ∈ charsetOf (body.includeUppercase.getD true) (body.includeNumbers.getD true)
      (body.includeSymbols.getD true) := by
  simp only [handleGeneratePassword] at hc
  rw [List.mem_map] at hc
  obtain ⟨i, _, rfl⟩ := hc
  have hpos := charsetOf_length_pos (body.includeUppercase.getD true)
    (body.includeNumbers.getD true) (body.includeSymbols.getD true)
  have hlt : r i % (charsetOf (body.includeUppercase.getD true) (body.includeNumbers.getD true)
        (body.includeSymbols.getD true)).length
      < (charsetOf (body.includeUppercase.getD true) (body.includeNumbers.getD true)
        (body.includeSymbols.getD true)).length := Nat.mod_lt _ hpos
  rw [List.getD_eq_getElem _ _ hlt]
  exact List.getElem_mem hlt

/-- C7: for every request, the generated password has length equal to the
requested length clamped to 8–128 (16 when absent or falsy), and draws only
characters from the charset of the selected classes (lowercase always
included); in particular `{length: 12, all flags false}` gives 12 lowercase
characters and `{length: 200}` clamps to 128. -/
theorem C7_generate_password :
    (∀ (body : GenerateBody) (randomBytes : Nat → Nat),
      (handleGeneratePassword body randomBytes).length
        = (min (max (requestedLength body.length) 8) 128).toNat ∧
      ∀ c ∈ (handleGeneratePassword body randomBytes).data,
        c ∈ charsetOf (body.includeUppercase.getD true) (body.includeNumbers.getD true)
          (body.includeSymbols.getD true)) ∧
    (∀ randomBytes : Nat → Nat,
      (handleGeneratePassword ⟨none, none, none, none⟩ randomBytes).length = 16) ∧
    (∀ randomBytes : Nat → Nat,
      (handleGeneratePassword ⟨some 12, some false, some false, some false⟩
        randomBytes).length = 12 ∧
      ∀ c ∈ (handleGeneratePassword ⟨some 12, some false, some false, some false⟩
          randomBytes).data,
        c ∈ LOWERCASE) ∧
    (∀ randomBytes : Nat → Nat,
      (handleGeneratePassword ⟨some 200, none, none, none⟩ randomBytes).length = 128) := by
  have hcs : charsetOf false false false = LOWERCASE := by decide
  refine ⟨fun body r => ⟨handleGeneratePassword_length body r,
      fun c hc => handleGeneratePassword_mem body r c hc⟩, ?_, ?_, ?_⟩
  · intro r
    rw [handleGeneratePassword_length]
    decide
  · intro r
    refine ⟨?_, ?_⟩
    · rw [handleGeneratePassword_length]
      decide
    · intro c hc
      have h2 := handleGeneratePassword_mem ⟨some 12, some false, some false, some false⟩ r c hc
      rw [show charsetOf ((some false).getD true) ((some false).getD true) ((some false).getD true)
          = LOWERCASE from hcs] at h2
      exact h2
  · intro r
    rw [handleGeneratePassword_length]
    decide

/-- Witness for C7: concrete draws with a constant random source. -/
theorem C7_witness :
    'a' ∈ (handleGeneratePassword ⟨some 12, some false, some false, some false⟩
      (fun _ => 0)).data ∧
    'a' ∈ LOWERCASE ∧
    (handleGeneratePassword ⟨some 200, none, none, none⟩ (fun _ => 0)).length = 128 :=
  ⟨by decide,
   (C7_generate_password.2.2.1 (fun _ => 0)).2 'a' (by decide),
   C7_generate_password.2.2.2 (fun _ => 0)⟩

/-- A vault record with its authenticated payload fields (`encryptedData`,
`iv`, `authTag`) replaced by arbitrary values — corrupted storage. -/
def corruptPayload (vault : PasswordVault) (ed iv2 tag2 : Bytes) : PasswordVault :=
  { vault with encryptedData := ed, iv := iv2, authTag := tag2 }

/-- C9: unlock succeeds exactly when the vault record exists and the
PBKDF2-SHA512 hash of the provided password under the stored salt equals the
stored hash; it never touches `encryptedData`/`iv`/`authTag` (its outcome is
invariant under arbitrary corruption of those fields), so a successful
unlock over a corrupted payload is only detected by the next entry
operation, which then fails on decryption. -/
theorem C9_unlock_verifies_hash_only :
    (∀ (st : ServerState) (email pw : String), pw ≠ "" →
      ((handleUnlock st email (some pw)).1 = .success ↔
        ∃ vault, st.vaultFile = some vault ∧
          hashMasterPassword pw vault.salt = vault.masterPasswordHash)) ∧
    (∀ (st : ServerState) (email pw : String) (vault : PasswordVault) (ed iv2 tag2 : Bytes),
      (handleUnlock { st with vaultFile := some (corruptPayload vault ed iv2 tag2) }
        email (some pw)).1
      = (handleUnlock { st with vaultFile := some vault } email (some pw)).1) ∧
    (∀ (st : ServerState) (email pw : String) (vault : PasswordVault), pw ≠ "" →
      st.vaultFile = some vault →
      hashMasterPassword pw vault.salt = vault.masterPasswordHash →
      decryptData vault.encryptedData (deriveKey pw vault.salt) vault.iv vault.authTag = none →
      (handleUnlock st email (some pw)).1 = .success ∧
      (handleListPasswords (handleUnlock st email (some pw)).2 email).1
        = .decryptionFailed) := by
  refine ⟨?_, ?_, ?_⟩
  · intro st email pw hpw
    cases hv : st.vaultFile with
    | none => simp [handleUnlock, jsFalsy, hpw, hv]
    | some v =>
      by_cases hh : hashMasterPassword pw v.salt = v.masterPasswordHash
      · simp [handleUnlock, jsFalsy, hpw, hv, hh]
      · simp [handleUnlock, jsFalsy, hpw, hv, hh]
  · intro st email pw vault ed iv2 tag2
    by_cases hf : pw = ""
    · simp [handleUnlock, jsFalsy, hf]
    · by_cases hh : hashMasterPassword pw vault.salt = vault.masterPasswordHash
      · simp [handleUnlock, jsFalsy, hf, hh, corruptPayload]
      · simp [handleUnlock, jsFalsy, hf, hh, corruptPayload]
  · intro st email pw vault hpw hv hh hd
    have hrun : handleUnlock st email (some pw)
        = (.success, setPasswordSession st email (deriveKey pw vault.salt)) := by
      simp [handleUnlock, jsFalsy, hpw, hv, hh]
    have hm : mapGet (setPasswordSession st email (deriveKey pw vault.salt)).passwordSessions
        email = some ⟨deriveKey pw vault.salt, st.now + PASSWORDS_SESSION_EXPIRY⟩ := by
      simp [setPasswordSession, mapGet_mapSet_self]
    have hl : ¬ st.now > st.now + PASSWORDS_SESSION_EXPIRY := by omega
    have hget := getPasswordSession_live (setPasswordSession st email (deriveKey pw vault.salt))
      email ⟨deriveKey pw vault.salt, st.now + PASSWORDS_SESSION_EXPIRY⟩ hm hl
    have hvf : (setPasswordSession st email (deriveKey pw vault.salt)).vaultFile
        = some vault := by
      simp [setPasswordSession, hv]
    refine ⟨by rw [hrun], ?_⟩
    rw [hrun]
    simp [handleListPasswords, hget, hvf, hd]

/-- Witness for C9: a vault whose stored hash matches the password but whose
payload does not decrypt; unlock succeeds, the next listing force-fails. -/
theorem C9_witness :
    ("longsecret1" ≠ "" ∧
      decryptData [] (deriveKey "longsecret1" [1]) [] [] = none) ∧
    (handleUnlock ⟨[], some ⟨[1], [], [], [], hashMasterPassword "longsecret1" [1]⟩, 0⟩ "u"
      (some "longsecret1")).1 = .success ∧
    (handleListPasswords
      (handleUnlock ⟨[], some ⟨[1], [], [], [], hashMasterPassword "longsecret1" [1]⟩, 0⟩ "u"
        (some "longsecret1")).2 "u").1 = .decryptionFailed :=
  ⟨⟨by decide, by decide⟩,
   (C9_unlock_verifies_hash_only.2.2
     ⟨[], some ⟨[1], [], [], [], hashMasterPassword "longsecret1" [1]⟩, 0⟩ "u" "longsecret1"
     ⟨[1], [], [], [], hashMasterPassword "longsecret1" [1]⟩
     (by decide) rfl rfl (by decide)).1,
   (C9_unlock_verifies_hash_only.2.2
     ⟨[], some ⟨[1], [], [], [], hashMasterPassword "longsecret1" [1]⟩, 0⟩ "u" "longsecret1"
     ⟨[1], [], [], [], hashMasterPassword "longsecret1" [1]⟩
     (by decide) rfl rfl (by decide)).2⟩

theorem clearPasswordSession_vaultFile (st : ServerState) (email : String) :
    (clearPasswordSession st email).vaultFile = st.vaultFile := rfl

theorem handleListPasswords_vaultFile (st : ServerState) (email : String) :
    (handleListPasswords st email).2.vaultFile = st.vaultFile := by
  unfold handleListPasswords
  rcases hg : getPasswordSession st email with ⟨ko, st1⟩
  have hvf := getPasswordSession_vaultFile st email
  rw [hg] at hvf
  cases ko with
  | none => simpa using hvf
  | some key =>
    have h1 : st1 = st := getPasswordSession_some_eq st email key st1 hg
    subst h1
    cases hv : st1.vaultFile with
    | none => simp [hv]
    | some vault =>
      cases hd : decryptData vault.encryptedData key vault.iv vault.authTag with
      | none => simp [hv, hd, clearPasswordSession]
      | some plain =>
        cases hp : parseEntries plain with
        | none => simp [hv, hd, hp, clearPasswordSession]
        | some entries => simp [hv, hd, hp]

theorem handleGetPassword_vaultFile (st : ServerState) (email id : String) :
    (handleGetPassword st email id).2.vaultFile = st.vaultFile := by
  unfold handleGetPassword
  rcases hg : getPasswordSession st email with ⟨ko, st1⟩
  have hvf := getPasswordSession_vaultFile st email
  rw [hg] at hvf
  cases ko with
  | none => simpa using hvf
  | some key =>
    have h1 : st1 = st := getPasswordSession_some_eq st email key st1 hg
    subst h1
    cases hv : st1.vaultFile with
    | none => simp [hv]
    | some vault =>
      cases hd : decryptData vault.encryptedData key vault.iv vault.authTag with
      | none => simp [hv, hd, clearPasswordSession]
      | some plain =>
        cases hp : parseEntries plain with
        | none => simp [hv, hd, hp, clearPasswordSession]
        | some entries =>
          cases hf : entries.find? (fun e => e.id == id) with
          | none => simp [hv, hd, hp, hf]
          | some e => simp [hv, hd, hp, hf]

theorem handleUpdatePassword_vaultFile_failure (st : ServerState) (email id : String)
    (name username password url notes : Option String) (nowIso : String) (ivNew : Bytes) :
    ((handleUpdatePassword st email id name username password url notes nowIso ivNew).1
        = .entryNotFound →
      (handleUpdatePassword st email id name username password url notes nowIso
        ivNew).2.vaultFile = st.vaultFile) ∧
    ((handleUpdatePassword st email id name username password url notes nowIso ivNew).1
        = .encryptionFailed →
      (handleUpdatePassword st email id name username password url notes nowIso
        ivNew).2.vaultFile = st.vaultFile) := by
  unfold handleUpdatePassword
  rcases hg : getPasswordSession st email with ⟨ko, st1⟩
  have hvf := getPasswordSession_vaultFile st email
  rw [hg] at hvf
  cases ko with
  | none => simp [hvf]
  | some key =>
    have h1 : st1 = st := getPasswordSession_some_eq st email key st1 hg
    subst h1
    cases hv : st1.vaultFile with
    | none => simp [hv]
    | some vault =>
      cases hd : decryptData vault.encryptedData key vault.iv vault.authTag with
      | none => simp [hv, hd, clearPasswordSession]
      | some plain =>
        cases hp : parseEntries plain with
        | none => simp [hv, hd, hp, clearPasswordSession]
        | some entries =>
          cases hu : updateFirst id
              (fun e => applyEntryUpdate e name username password url notes nowIso) entries with
          | none => simp [hv, hd, hp, hu]
          | some p =>
            obtain ⟨u2, es2⟩ := p
            simp [hv, hd, hp, hu]

theorem handleDeletePassword_vaultFile_failure (st : ServerState) (email id : String)
    (ivNew : Bytes) :
    ((handleDeletePassword st email id ivNew).1 = .entryNotFound →
      (handleDeletePassword st email id ivNew).2.vaultFile = st.vaultFile) ∧
    ((handleDeletePassword st email id ivNew).1 = .encryptionFailed →
      (handleDeletePassword st email id ivNew).2.vaultFile = st.vaultFile) := by
  unfold handleDeletePassword
  rcases hg : getPasswordSession st email with ⟨ko, st1⟩
  have hvf := getPasswordSession_vaultFile st email
  rw [hg] at hvf
  cases ko with
  | none => simp [hvf]
  | some key =>
    have h1 : st1 = st := getPasswordSession_some_eq st email key st1 hg
    subst h1
    cases hv : st1.vaultFile with
    | none => simp [hv]
    | some vault =>
      cases hd : decryptData vault.encryptedData key vault.iv vault.authTag with
      | none => simp [hv, hd, clearPasswordSession]
      | some plain =>
        cases hp : parseEntries plain with
        | none => simp [hv, hd, hp, clearPasswordSession]
        | some entries =>
          by_cases hf : (entries.filter (fun e => !(e.id == id))).length = entries.length
          · simp [hv, hd, hp, hf]
          · simp [hv, hd, hp, hf]

/-- C10: when update or delete fails with EntryNotFound, and when any of
list/get/update/delete fails (in particular because decryption throws), the
persisted vault record is untouched: list and get never write it at all,
and update/delete leave it exactly as it was on every failing branch. -/
theorem C10_failures_do_not_write
    (st : ServerState) (email id : String)
    (name username password url notes : Option String) (nowIso : String) (ivNew : Bytes) :
    ((handleListPasswords st email).2.vaultFile = st.vaultFile) ∧
    ((handleGetPassword st email id).2.vaultFile = st.vaultFile) ∧
    ((handleUpdatePassword st email id name username password url notes nowIso ivNew).1
        = .entryNotFound →
      (handleUpdatePassword st email id name username password url notes nowIso
        ivNew).2.vaultFile = st.vaultFile) ∧
    ((handleUpdatePassword st email id name username password url notes nowIso ivNew).1
        = .encryptionFailed →
      (handleUpdatePassword st email id name username password url notes nowIso
        ivNew).2.vaultFile = st.vaultFile) ∧
    ((handleDeletePassword st email id ivNew).1 = .entryNotFound →
      (handleDeletePassword st email id ivNew).2.vaultFile = st.vaultFile) ∧
    ((handleDeletePassword st email id ivNew).1 = .encryptionFailed →
      (handleDeletePassword st email id ivNew).2.vaultFile = st.vaultFile) :=
  ⟨handleListPasswords_vaultFile st email,
   handleGetPassword_vaultFile st email id,
   (handleUpdatePassword_vaultFile_failure st email id name username password url notes
     nowIso ivNew).1,
   (handleUpdatePassword_vaultFile_failure st email id name username password url notes
     nowIso ivNew).2,
   (handleDeletePassword_vaultFile_failure st email id ivNew).1,
   (handleDeletePassword_vaultFile_failure st email id ivNew).2⟩

/-- Witness for C10: updating a nonexistent id fails with EntryNotFound and
leaves the stored vault record exactly as it was. -/
theorem C10_witness :
    (handleUpdatePassword wState "u" "zz" none none none none none "t" [3]).1
      = .entryNotFound ∧
    (handleUpdatePassword wState "u" "zz" none none none none none "t" [3]).2.vaultFile
      = some wVault :=
  ⟨by decide,
   (C10_failures_do_not_write wState "u" "zz" none none none none none "t" [3]).2.2.1
     (by decide)⟩

/-- The entry list currently stored in the vault file, as decrypted and
parsed by a holder of `key`. -/
def vaultEntriesOf (st : ServerState) (key : Bytes) : Option (List PasswordEntry) :=
  match st.vaultFile with
  | none => none
  | some vault =>
    match decryptData vault.encryptedData key vault.iv vault.authTag with
    | none => none
    | some plain => parseEntries plain

/-- Interleaved execution of two concurrent `POST /api/passwords` calls by
the same unlocked caller, under a schedule the source's `await` points
permit: both handlers pass their `await loadPasswordVault()` — each reading
the same stored vault — before either `await savePasswordVault(...)` runs;
call A's save lands first and call B's save lands second.  Each call's
response and replacement vault come from `createCompute`, the same
read-modify-write phase `handleCreatePassword` uses; the source has no lock
serialising the two sequences. -/
def interleavedCreates (st : ServerState) (email : String)
    (nameA pwA nameB pwB : String) (idA idB tA tB : String) (ivA ivB : Bytes) :
    CreateResp × CreateResp × ServerState :=
  match getPasswordSession st email with
  | (none, st1) => (.vaultLocked, .vaultLocked, st1)
  | (some key, st1) =>
    match st1.vaultFile with
    | none => (.vaultNotSetup, .vaultNotSetup, st1)
    | some vault =>
      match createCompute vault key nameA none pwA none none idA tA ivA,
            createCompute vault key nameB none pwB none none idB tB ivB with
      | some (_vA, eA), some (vB, eB) =>
        (.ok (safeEntryObj eA), .ok (safeEntryObj eB), { st1 with vaultFile := some vB })
      | _, _ => (.encryptionFailed, .encryptionFailed, clearPasswordSession st1 email)

/-- Concrete initial state for the concurrency scenario: an empty vault and
a live session for the caller. -/
def cState : ServerState :=
  ⟨[("u", ⟨wKey, 10⟩)], some ⟨[0], (encryptData (serializeEntries []) wKey [2]).iv,
    (encryptData (serializeEntries []) wKey [2]).authTag,
    (encryptData (serializeEntries []) wKey [2]).encrypted, []⟩, 0⟩

/-- C8 is violated by the code: under the interleaving the `await` points
allow, both concurrent creates report success, yet the final persisted
vault contains only the second writer's entry — the first edit is silently
lost — whereas running the same two creates sequentially stores both. -/
theorem C8_concurrent_creates_lose_first_edit :
    (interleavedCreates cState "u" "A" "pa" "B" "pb" "idA" "idB" "t1" "t2" [7] [8]).1
        = .ok (safeEntryObj ⟨"idA", "A", "", "pa", none, none, "t1", "t1"⟩) ∧
    (interleavedCreates cState "u" "A" "pa" "B" "pb" "idA" "idB" "t1" "t2" [7] [8]).2.1
        = .ok (safeEntryObj ⟨"idB", "B", "", "pb", none, none, "t2", "t2"⟩) ∧
    (vaultEntriesOf (interleavedCreates cState "u" "A" "pa" "B" "pb" "idA" "idB" "t1" "t2"
        [7] [8]).2.2 wKey).map (List.map PasswordEntry.id)
        = some ["idB"] ∧
    (vaultEntriesOf (handleCreatePassword (handleCreatePassword cState "u" (some "A") none
        (some "pa") none none "idA" "t1" [7]).2 "u" (some "B") none (some "pb") none none
        "idB" "t2" [8]).2 wKey).map (List.map PasswordEntry.id)
        = some ["idA", "idB"] :=
  ⟨by decide, by decide, by decide, by decide⟩
